import Mathlib

/-
Verification of the credit-scoring service (FastAPI app under api/):
feature-contract validation (api/schemas.py), decision policy (api/app.py),
prediction-logging middleware (api/middleware.py) and the dual-backend
persistence sink (api/database.py), shallowly embedded over exact rationals.
-/

namespace CreditApi

/-- JSON values as produced by json.loads: Python distinguishes bool, int and
float objects, so the embedding keeps them as separate constructors. -/
inductive Json where
  | nullV : Json
  | boolV (b : Bool) : Json
  | intV (n : ℤ) : Json
  | floatV (q : ℚ) : Json
  | strV (s : String) : Json
  | listV (xs : List Json) : Json
  | dictV (kvs : List (String × Json)) : Json

/-- Digits-only string fragment to a natural number; none when a non-digit occurs.
The empty list maps to 0 and is screened by the caller. -/
def natOfDigits (cs : List Char) : Option ℕ :=
  if cs.all Char.isDigit then
    some (cs.foldl (fun a c => a * 10 + (c.toNat - 48)) 0)
  else
    none

/-- Unsigned decimal literal (the fragment of Python float parsing that pydantic
lax mode applies to numeric strings): digits, optionally digits dot digits. -/
def parseUnsigned (s : String) : Option ℚ :=
  match s.splitOn "." with
  | [i] =>
      if i.isEmpty then none
      else (natOfDigits i.toList).map (fun n => (n : ℚ))
  | [i, f] =>
      if i.isEmpty && f.isEmpty then none
      else
        match natOfDigits i.toList, natOfDigits f.toList with
        | some ni, some nf => some ((ni : ℚ) + mkRat nf (10 ^ f.length))
        | _, _ => none
  | _ => none

/-- Signed decimal literal. -/
def parseDecimal (s : String) : Option ℚ :=
  if s.startsWith "-" then (parseUnsigned (s.drop 1)).map (fun q => -q)
  else if s.startsWith "+" then parseUnsigned (s.drop 1)
  else parseUnsigned s

/-- Pydantic lax-mode coercion into a float field: accepts int, float,
bool (True as 1.0, False as 0.0, pinned by test_boolean_coercion_for_float)
and numeric strings; everything else is a type error. -/
def coerceFloat : Json → Option ℚ
  | .intV n => some ((n : ℚ))
  | .floatV q => some q
  | .boolV b => some (if b then 1 else 0)
  | .strV s => parseDecimal s
  | _ => none

/-- Pydantic lax-mode coercion into an int field: accepts int, an integral
float, and an integral numeric string; bool is rejected for int fields. -/
def coerceInt : Json → Option ℤ
  | .intV n => some n
  | .floatV q => if q.den = 1 then some q.num else none
  | .strV s =>
      match parseDecimal s with
      | some q => if q.den = 1 then some q.num else none
      | none => none
  | _ => none

/-- The two numeric kinds appearing in CreditFeatures. -/
inductive NumKind where
  | float : NumKind
  | int : NumKind
deriving DecidableEq

/-- Coercion for a declared kind, with int results viewed as rationals. -/
def coerceKind : NumKind → Json → Option ℚ
  | .float, v => coerceFloat v
  | .int, v => (coerceInt v).map (fun n => ((n : ℚ)))

/-- One pydantic Field declaration of CreditFeatures: name, numeric kind and
its bound pair, with loStrict for gt (vs ge) and hiStrict for lt (vs le). -/
structure FieldSpec where
  name : String
  kind : NumKind
  lo : ℚ
  loStrict : Bool
  hi : ℚ
  hiStrict : Bool
deriving DecidableEq

/-- The ten fields of api/schemas.py CreditFeatures, in declaration order.
Bounds transcribe the Field keywords: ge/le everywhere except
AMT_ANNUITY (gt 0, le 1e6) and DAYS_BIRTH (int, lt 0, ge -30000). -/
def creditFeatureFields : List FieldSpec := [
  ⟨"EXT_SOURCES_MEAN", .float, 0, false, 1, false⟩,
  ⟨"CREDIT_TERM", .float, 0, false, 1, false⟩,
  ⟨"EXT_SOURCE_3", .float, 0, false, 1, false⟩,
  ⟨"GOODS_PRICE_CREDIT_PERCENT", .float, 0, false, mkRat 3 2, false⟩,
  ⟨"INSTAL_AMT_PAYMENT_sum", .float, 0, false, 100000000, false⟩,
  ⟨"AMT_ANNUITY", .float, 0, true, 1000000, false⟩,
  ⟨"POS_CNT_INSTALMENT_FUTURE_mean", .float, 0, false, 200, false⟩,
  ⟨"DAYS_BIRTH", .int, -30000, false, 0, true⟩,
  ⟨"EXT_SOURCES_WEIGHTED", .float, 0, false, 3, false⟩,
  ⟨"EXT_SOURCE_2", .float, 0, false, 1, false⟩]

/-- Bound check for one field, honouring strict vs inclusive bounds. -/
def boundsOk (fs : FieldSpec) (q : ℚ) : Bool :=
  (if fs.loStrict then decide (fs.lo < q) else decide (fs.lo ≤ q)) &&
  (if fs.hiStrict then decide (q < fs.hi) else decide (q ≤ fs.hi))

/-- Validation of a single field against the raw payload, as pydantic does it:
missing, wrong type (after lax coercion), or out of range. -/
def checkSpec (p : List (String × Json)) (fs : FieldSpec) : Except String ℚ :=
  match p.lookup fs.name with
  | none => .error "missing"
  | some v =>
      match coerceKind fs.kind v with
      | none => .error "type_invalid"
      | some q => if boundsOk fs q then .ok q else .error "out_of_range"

/-- All validation errors of a payload, one entry per offending field, in
declaration order: pydantic enumerates every failing field. -/
def validationErrors (p : List (String × Json)) : List (String × String) :=
  creditFeatureFields.filterMap fun fs =>
    match checkSpec p fs with
    | .error e => some (fs.name, e)
    | .ok _ => none

/-- A validated feature vector (api/schemas.py CreditFeatures). -/
structure CreditFeatures where
  EXT_SOURCES_MEAN : ℚ
  CREDIT_TERM : ℚ
  EXT_SOURCE_3 : ℚ
  GOODS_PRICE_CREDIT_PERCENT : ℚ
  INSTAL_AMT_PAYMENT_sum : ℚ
  AMT_ANNUITY : ℚ
  POS_CNT_INSTALMENT_FUTURE_mean : ℚ
  DAYS_BIRTH : ℤ
  EXT_SOURCES_WEIGHTED : ℚ
  EXT_SOURCE_2 : ℚ
deriving DecidableEq

/-- The validated rational value of a named field (0 when absent; only used
once validation has succeeded). -/
def fieldValue (p : List (String × Json)) (name : String) : ℚ :=
  match creditFeatureFields.find? (fun fs => fs.name == name) with
  | some fs =>
      match checkSpec p fs with
      | .ok q => q
      | .error _ => 0
  | none => 0

/-- Full payload validation: pydantic model construction, which succeeds iff
no field check fails and otherwise reports every offending field. -/
def validate (p : List (String × Json)) :
    Except (List (String × String)) CreditFeatures :=
  if validationErrors p = [] then
    .ok
      { EXT_SOURCES_MEAN := fieldValue p "EXT_SOURCES_MEAN"
        CREDIT_TERM := fieldValue p "CREDIT_TERM"
        EXT_SOURCE_3 := fieldValue p "EXT_SOURCE_3"
        GOODS_PRICE_CREDIT_PERCENT := fieldValue p "GOODS_PRICE_CREDIT_PERCENT"
        INSTAL_AMT_PAYMENT_sum := fieldValue p "INSTAL_AMT_PAYMENT_sum"
        AMT_ANNUITY := fieldValue p "AMT_ANNUITY"
        POS_CNT_INSTALMENT_FUTURE_mean := fieldValue p "POS_CNT_INSTALMENT_FUTURE_mean"
        DAYS_BIRTH := (fieldValue p "DAYS_BIRTH").num
        EXT_SOURCES_WEIGHTED := fieldValue p "EXT_SOURCES_WEIGHTED"
        EXT_SOURCE_2 := fieldValue p "EXT_SOURCE_2" }
  else
    .error (validationErrors p)

/-- Errors carried by a validation result (empty on success). -/
def errorsOf : Except (List (String × String)) CreditFeatures → List (String × String)
  | .error es => es
  | .ok _ => []

/-- The fixed decision threshold of api/app.py, OPTIMAL_THRESHOLD = 0.10. -/
def OPTIMAL_THRESHOLD : ℚ := mkRat 1 10

/-- Round-half-even of the fraction n over d (d positive) to the nearest
integer: the floor is n fdiv d and the doubled remainder 2 * (n - f * d) is
compared against d to place the half. Integer arithmetic only, so that it
evaluates in the kernel. -/
def rheInt (n d : ℤ) : ℤ :=
  let f : ℤ := n.fdiv d
  let r2 : ℤ := 2 * (n - f * d)
  if r2 < d then f else if d < r2 then f + 1 else if f % 2 = 0 then f else f + 1

/-- Python round(q, 6) on exact rationals: round half to even at six decimal
places, i.e. round-half-even of num * 10^6 over den, divided by 10^6. -/
def round6 (q : ℚ) : ℚ :=
  mkRat (rheInt (q.num * 1000000) ((q.den : ℤ))) 1000000

/-- Body of a successful prediction (api/schemas.py PredictionResponse). -/
structure PredictionResponse where
  prediction : ℤ
  probability_default : ℚ
  credit_decision : String
deriving DecidableEq

/-- Lines 70 to 76 of api/app.py predict: threshold the raw model probability,
derive the label from the thresholded prediction, and return the probability
rounded to six decimals. -/
def predictResponse (probability : ℚ) : PredictionResponse :=
  let prediction : ℤ := if OPTIMAL_THRESHOLD ≤ probability then 1 else 0
  { prediction := prediction
    probability_default := round6 probability
    credit_decision := if prediction = 1 then "denied" else "approved" }

/-- Response of GET /health (api/schemas.py HealthResponse). -/
structure HealthResponse where
  status : String
  model_loaded : Bool
deriving DecidableEq

/-- Lines 50 to 55 of api/app.py: the health endpoint, with the process-wide
onnxruntime session modelled as an optional token. -/
def health (session : Option Unit) : HealthResponse :=
  { status := "healthy", model_loaded := session.isSome }

/-- Log record built by middleware lines 41 to 47: UTC timestamp, the raw
parsed input payload, and the three outcome fields extracted (with dict get)
from the parsed response body. -/
structure LogEntry where
  timestamp : String
  input_features : Json
  prediction : Option Json
  probability_default : Option Json
  credit_decision : Option Json

/-- A row of the predictions table as written by insert_prediction
(api/database.py lines 98 to 107); the autoincrement id and the
server-assigned timestamp default are left to the database. -/
structure DbRow where
  timestamp : String
  input_features : Json
  prediction : Option Json
  probability_default : Option Json
  credit_decision : Option Json

/-- Column values bound by the insert statement of insert_prediction. -/
def rowOf (e : LogEntry) : DbRow :=
  { timestamp := e.timestamp
    input_features := e.input_features
    prediction := e.prediction
    probability_default := e.probability_default
    credit_decision := e.credit_decision }

/-- Process-wide persistence state: the optional engine handle set once by
init_db, the JSONL log file contents, and the predictions table rows. -/
structure SinkState where
  engine : Option Unit
  fileLines : List LogEntry
  dbRows : List DbRow

/-- api/database.py is_db_enabled. -/
def is_db_enabled (st : SinkState) : Bool := st.engine.isSome

/-- The connection plus create_all step of init_db (lines 71 to 73); an error
value models the exception raised when the database is unreachable or schema
creation fails, with connectOk saying whether it would succeed. -/
def tryConnect (connectOk : Bool) : Except String Unit :=
  if connectOk then .ok () else .error "connect or create_all failed"

/-- api/database.py init_db, lines 60 to 79: without DATABASE_URL the engine
stays None (file backend); on any connection or schema failure the exception
is caught and the engine reset to None; the function itself never raises. -/
def init_db (url : Option String) (connectOk : Bool) : Except String (Option Unit) :=
  match url with
  | none => .ok none
  | some _ =>
      match tryConnect connectOk with
      | .ok _ => .ok (some ())
      | .error _ => .ok none

/-- The engine.begin plus execute step of insert_prediction; an error value
models the exception raised on a failed connection or insert. -/
def dbExecuteInsert (execOk : Bool) (rows : List DbRow) (r : DbRow) :
    Except String (List DbRow) :=
  if execOk then .ok (rows ++ [r]) else .error "db execute failed"

/-- api/database.py insert_prediction, lines 93 to 109: no-op when the engine
is None; otherwise insert, catching any exception (the entry is dropped). -/
def insert_prediction (engine : Option Unit) (execOk : Bool) (rows : List DbRow)
    (e : LogEntry) : Except String (List DbRow) :=
  match engine with
  | none => .ok rows
  | some _ =>
      match dbExecuteInsert execOk rows (rowOf e) with
      | .ok rows2 => .ok rows2
      | .error _ => .ok rows

/-- The file append of middleware lines 53 to 54; an error value models a
raised IO failure. -/
def fileAppendLine (writeOk : Bool) (lines : List LogEntry) (e : LogEntry) :
    Except String (List LogEntry) :=
  if writeOk then .ok (lines ++ [e]) else .error "file write failed"

/-- Middleware lines 49 to 56: write the entry through the backend chosen by
is_db_enabled, with the whole attempt wrapped in try/except so that a raised
persistence error is swallowed (logger.exception) and the state kept. -/
def logToSink (st : SinkState) (dbExecOk fileOk : Bool) (e : LogEntry) :
    Except String SinkState :=
  let attempt : Except String SinkState :=
    if is_db_enabled st then
      match insert_prediction st.engine dbExecOk st.dbRows e with
      | .ok rows2 => .ok { st with dbRows := rows2 }
      | .error msg => .error msg
    else
      match fileAppendLine fileOk st.fileLines e with
      | .ok ls => .ok { st with fileLines := ls }
      | .error msg => .error msg
  match attempt with
  | .ok st2 => .ok st2
  | .error _ => .ok st

/-- The state after one logging attempt (logToSink never propagates). -/
def logStep (st : SinkState) (dbExecOk fileOk : Bool) (e : LogEntry) : SinkState :=
  match logToSink st dbExecOk fileOk e with
  | .ok st2 => st2
  | .error _ => st

/-- Sink state after a sequence of logging attempts, each with its own
success flags. -/
def runLog (st : SinkState) : List (LogEntry × Bool × Bool) → SinkState
  | [] => st
  | (e, dbOk, fOk) :: rest => runLog (logStep st dbOk fOk e) rest

/-- A starlette response as seen by the middleware: status, headers as an
association list (repeated names possible in a raw header list), the body
chunks produced by body_iterator, and the media type. -/
structure Resp where
  status_code : ℕ
  headers : List (String × String)
  chunks : List (List ℕ)
  media_type : Option String

/-- Python dict() applied to the starlette Headers mapping (middleware line
61): one entry per distinct name, and a repeated name collapses to its first
occurrence, since Headers item lookup returns the first match. -/
def dictOf : List (String × String) → List (String × String)
  | [] => []
  | (k, v) :: rest => (k, v) :: dictOf (rest.filter (fun kv => kv.1 != k))
termination_by l => l.length
decreasing_by
  simp only [List.length_cons]
  exact Nat.lt_succ_of_le (List.length_filter_le ..)

/-- Python dict get on a parsed JSON value (None when absent or not a dict). -/
def jsonGet : Json → String → Option Json
  | .dictV kvs, key => kvs.lookup key
  | _, _ => none

/-- The log entry the middleware builds for a 200 response, from the parsed
request body and the parsed buffered response body. -/
def entryOf (parse : List ℕ → Option Json) (now : String) (requestBody : List ℕ)
    (resp : Resp) : LogEntry :=
  let response_data : Json := (parse resp.chunks.flatten).getD (Json.dictV [])
  { timestamp := now
    input_features := (parse requestBody).getD (Json.dictV [])
    prediction := jsonGet response_data "prediction"
    probability_default := jsonGet response_data "probability_default"
    credit_decision := jsonGet response_data "credit_decision" }

/-- PredictionLoggingMiddleware.dispatch on a POST /predict request, lines 19
to 63 of api/middleware.py: parse the request body (empty dict on parse
failure), delegate, buffer all response chunks, build and write a log entry
only when the status is 200 (parsing the response body, empty dict on
failure), and re-emit a response from the buffered bytes with the original
status, dict-collapsed headers and media type. parse stands for json.loads on
a complete byte string; dbExecOk and fileOk say whether the database execute
and the file append would succeed. Returns the re-emitted response, the sink
state after the logging attempt, and the entries handed to the sink. -/
def dispatch (parse : List ℕ → Option Json) (now : String) (requestBody : List ℕ)
    (resp : Resp) (st : SinkState) (dbExecOk fileOk : Bool) :
    Resp × SinkState × List LogEntry :=
  let input_data : Json := (parse requestBody).getD (Json.dictV [])
  let response_body : List ℕ := resp.chunks.flatten
  let stAndLog : SinkState × List LogEntry :=
    if resp.status_code = 200 then
      let response_data : Json := (parse response_body).getD (Json.dictV [])
      let entry : LogEntry :=
        { timestamp := now
          input_features := input_data
          prediction := jsonGet response_data "prediction"
          probability_default := jsonGet response_data "probability_default"
          credit_decision := jsonGet response_data "credit_decision" }
      (logStep st dbExecOk fileOk entry, [entry])
    else
      (st, [])
  (⟨resp.status_code, dictOf resp.headers, [response_body], resp.media_type⟩,
    stAndLog.1, stAndLog.2)

/-- SQLAlchemy column types used by the predictions table. -/
inductive ColType where
  | integer : ColType
  | dateTimeTZ : ColType
  | jsonb : ColType
  | smallInt : ColType
  | double : ColType
  | varString (n : ℕ) : ColType
deriving DecidableEq

/-- One SQLAlchemy Column declaration. -/
structure ColumnSpec where
  name : String
  ctype : ColType
  primaryKey : Bool
  autoincrement : Bool
  nullable : Bool
  serverDefaultNow : Bool
deriving DecidableEq

/-- The predictions table of api/database.py lines 29 to 38. SQLAlchemy
defaults apply: a non-primary-key column without nullable=False is nullable,
and only the timestamp column carries a server default (func.now()). -/
def predictionsColumns : List ColumnSpec := [
  ⟨"id", .integer, true, true, false, false⟩,
  ⟨"timestamp", .dateTimeTZ, false, false, false, true⟩,
  ⟨"input_features", .jsonb, false, false, true, false⟩,
  ⟨"prediction", .smallInt, false, false, true, false⟩,
  ⟨"probability_default", .double, false, false, true, false⟩,
  ⟨"credit_decision", .varString 10, false, false, true, false⟩]

/-- Acceptance of one float field in the vocabulary of the specification:
the field is present, numerically coercible, and inside its declared range
(strict lower bound when loStrict). Stated independently of checkSpec so that
the validation theorem compares the code against the specification table. -/
def specFloatAccepted (p : List (String × Json)) (name : String) (lo hi : ℚ)
    (loStrict : Bool) : Prop :=
  ∃ v, p.lookup name = some v ∧ ∃ q, coerceFloat v = some q ∧
    (if loStrict then lo < q else lo ≤ q) ∧ q ≤ hi

/-- Acceptance of the integer field in the vocabulary of the specification:
present, coercible to an integer, and inside the inclusive integer range. -/
def specIntAccepted (p : List (String × Json)) (name : String) (lo hi : ℤ) : Prop :=
  ∃ v, p.lookup name = some v ∧ ∃ n, coerceInt v = some n ∧ lo ≤ n ∧ n ≤ hi

/-- A json.loads stub with no successful parse (the middleware then degrades
to the empty dict). -/
def noParse : List ℕ → Option Json := fun _ => none

/-- A 422 validation-failure response as FastAPI produces it. -/
def resp422 : Resp :=
  ⟨422, [("content-length", "86"), ("content-type", "application/json")],
    [[123, 125]], some "application/json"⟩

/-- A 200 prediction response shell with two body chunks. -/
def resp200 : Resp :=
  ⟨200, [("content-length", "75"), ("content-type", "application/json")],
    [[123], [125]], some "application/json"⟩

/-- Fresh file-backend sink state (engine None). -/
def st0 : SinkState := ⟨none, [], []⟩

/-- A sample log entry. -/
def e0 : LogEntry := ⟨"2025-01-01T00:00:00+00:00", Json.dictV [], none, none, none⟩

/-- The VALID_PAYLOAD of src/tests/test_api.py with EXT_SOURCES_MEAN replaced
by the JSON boolean true, mirroring test_boolean_coercion_for_float. -/
def boolPayload : List (String × Json) := [
  ("EXT_SOURCES_MEAN", Json.boolV true),
  ("CREDIT_TERM", Json.floatV (mkRat 1 20)),
  ("EXT_SOURCE_3", Json.floatV (mkRat 107 200)),
  ("GOODS_PRICE_CREDIT_PERCENT", Json.floatV (mkRat 9 10)),
  ("INSTAL_AMT_PAYMENT_sum", Json.floatV (mkRat 637239 2)),
  ("AMT_ANNUITY", Json.floatV 24903),
  ("POS_CNT_INSTALMENT_FUTURE_mean", Json.floatV (mkRat 139 20)),
  ("DAYS_BIRTH", Json.intV (-15750)),
  ("EXT_SOURCES_WEIGHTED", Json.floatV (mkRat 3 2)),
  ("EXT_SOURCE_2", Json.floatV (mkRat 283 500))]

/-- The field declaration of EXT_SOURCES_MEAN. -/
def extSourcesMeanField : FieldSpec := ⟨"EXT_SOURCES_MEAN", .float, 0, false, 1, false⟩

lemma validate_isOk_iff (p : List (String × Json)) :
    (validate p).isOk = true ↔ validationErrors p = [] := by
  by_cases h : validationErrors p = [] <;> simp [validate, h, Except.isOk, Except.toBool]

lemma validationErrors_nil_iff (p : List (String × Json)) :
    validationErrors p = [] ↔
      ∀ fs ∈ creditFeatureFields, (checkSpec p fs).isOk = true := by
  unfold validationErrors
  rw [List.filterMap_eq_nil_iff]
  constructor
  · intro H fs hfs
    have h2 := H fs hfs
    cases h : checkSpec p fs <;>
      simp [h, Except.isOk, Except.toBool] at h2 ⊢
  · intro H fs hfs
    have h2 := H fs hfs
    cases h : checkSpec p fs <;>
      simp [h, Except.isOk, Except.toBool] at h2 ⊢

lemma errorsOf_validate (p : List (String × Json)) :
    errorsOf (validate p) = validationErrors p := by
  by_cases h : validationErrors p = [] <;> simp [validate, h, errorsOf]

lemma checkSpec_isOk_iff (p : List (String × Json)) (fs : FieldSpec) :
    (checkSpec p fs).isOk = true ↔
      ∃ v, p.lookup fs.name = some v ∧
        ∃ q, coerceKind fs.kind v = some q ∧ boundsOk fs q = true := by
  unfold checkSpec
  cases hl : p.lookup fs.name with
  | none => simp [Except.isOk, Except.toBool]
  | some v =>
      cases hc : coerceKind fs.kind v with
      | none => simp [hc, Except.isOk, Except.toBool]
      | some q =>
          by_cases hb : boundsOk fs q = true <;>
            simp [hc, hb, Except.isOk, Except.toBool]

lemma checkSpec_float_iff (p : List (String × Json)) (name : String)
    (lo hi : ℚ) (loS : Bool) :
    (checkSpec p ⟨name, .float, lo, loS, hi, false⟩).isOk = true ↔
      specFloatAccepted p name lo hi loS := by
  rw [checkSpec_isOk_iff]
  unfold specFloatAccepted
  refine exists_congr fun v => and_congr_right fun _ => ?_
  refine exists_congr fun q => and_congr_right fun _ => ?_
  cases loS <;> simp [boundsOk, coerceKind]

lemma boundsOk_daysBirth (q : ℚ) :
    boundsOk ⟨"DAYS_BIRTH", .int, -30000, false, 0, true⟩ q = true ↔
      (-30000 ≤ q ∧ q < 0) := by
  simp [boundsOk]

lemma checkSpec_daysBirth_iff (p : List (String × Json)) :
    (checkSpec p ⟨"DAYS_BIRTH", .int, -30000, false, 0, true⟩).isOk = true ↔
      specIntAccepted p "DAYS_BIRTH" (-30000) (-1) := by
  rw [checkSpec_isOk_iff]
  unfold specIntAccepted
  refine exists_congr fun v => and_congr_right fun _ => ?_
  cases hci : coerceInt v with
  | none =>
      constructor
      · rintro ⟨q, hq, _⟩
        simp [coerceKind, hci] at hq
      · rintro ⟨n, hn, _⟩
        simp [hci] at hn
  | some n =>
      constructor
      · rintro ⟨q, hq, hb⟩
        have hqn : (n : ℚ) = q := by simpa [coerceKind, hci] using hq
        subst hqn
        rw [boundsOk_daysBirth] at hb
        refine ⟨n, rfl, ?_, ?_⟩
        · exact_mod_cast hb.1
        · have hlt : n < 0 := by exact_mod_cast hb.2
          omega
      · rintro ⟨m, hm, h1, h2⟩
        obtain rfl : n = m := by simpa using hm
        refine ⟨(n : ℚ), by simp [coerceKind, hci], ?_⟩
        rw [boundsOk_daysBirth]
        constructor
        · exact_mod_cast h1
        · have : n < 0 := by omega
          exact_mod_cast this

lemma fieldName_inj :
    ∀ a ∈ creditFeatureFields, ∀ c ∈ creditFeatureFields, a.name = c.name → a = c := by
  decide

lemma logStep_engine (st : SinkState) (a b : Bool) (e : LogEntry) :
    (logStep st a b e).engine = st.engine := by
  obtain ⟨eng, fl, rows⟩ := st
  cases eng <;> cases a <;> cases b <;> rfl

lemma runLog_engine (reqs : List (LogEntry × Bool × Bool)) :
    ∀ st : SinkState, (runLog st reqs).engine = st.engine := by
  induction reqs with
  | nil => intro st; rfl
  | cons h t ih =>
      intro st
      obtain ⟨e, a, b⟩ := h
      rw [runLog, ih, logStep_engine]

lemma runLog_ok_none (es : List LogEntry) :
    ∀ fl : List LogEntry, ∀ rows : List DbRow,
      runLog ⟨none, fl, rows⟩ (es.map fun e => (e, true, true)) =
        ⟨none, fl ++ es, rows⟩ := by
  induction es with
  | nil => intro fl rows; simp [runLog]
  | cons e t ih =>
      intro fl rows
      have hstep : logStep ⟨none, fl, rows⟩ true true e = ⟨none, fl ++ [e], rows⟩ := rfl
      simp only [List.map_cons, runLog, hstep, ih]
      simp

lemma runLog_ok_some (es : List LogEntry) :
    ∀ fl : List LogEntry, ∀ rows : List DbRow,
      runLog ⟨some (), fl, rows⟩ (es.map fun e => (e, true, true)) =
        ⟨some (), fl, rows ++ es.map rowOf⟩ := by
  induction es with
  | nil => intro fl rows; simp [runLog]
  | cons e t ih =>
      intro fl rows
      have hstep : logStep ⟨some (), fl, rows⟩ true true e =
          ⟨some (), fl, rows ++ [rowOf e]⟩ := rfl
      simp only [List.map_cons, runLog, hstep, ih]
      simp

lemma dictOf_nodup :
    ∀ l : List (String × String), (l.map Prod.fst).Nodup → dictOf l = l := by
  intro l
  induction l with
  | nil => intro _; simp [dictOf]
  | cons kv t ih =>
      intro h
      obtain ⟨k, v⟩ := kv
      rw [List.map_cons, List.nodup_cons] at h
      have hfilter : t.filter (fun kv => kv.1 != k) = t := by
        rw [List.filter_eq_self]
        intro a ha
        have hne : a.1 ≠ k := by
          intro he
          have hmem : a.1 ∈ t.map Prod.fst := List.mem_map_of_mem Prod.fst ha
          rw [he] at hmem
          exact h.1 hmem
        simpa using hne
      rw [dictOf, hfilter, ih h.2]

/-- C10: GET /health always reports status healthy, whether or not the model
session is loaded; only the model_loaded flag reflects model availability. -/
theorem health_always_healthy :
    (∀ session : Option Unit, (health session).status = "healthy") ∧
    (∀ session : Option Unit, (health session).model_loaded = session.isSome) ∧
    (health none).status = "healthy" ∧ (health none).model_loaded = false :=
  ⟨fun _ => rfl, fun _ => rfl, rfl, rfl⟩

/-- C8 counterexample: the predictions table has exactly the six columns id,
timestamp, input_features, prediction, probability_default and
credit_decision — there is no status code, duration or error text column,
contrary to the claimed schema. -/
theorem predictions_schema_columns :
    predictionsColumns.map ColumnSpec.name =
      ["id", "timestamp", "input_features", "prediction", "probability_default",
        "credit_decision"] ∧
    ((predictionsColumns.map ColumnSpec.name).contains "status_code" = false) ∧
    ((predictionsColumns.map ColumnSpec.name).contains "duration" = false) ∧
    ((predictionsColumns.map ColumnSpec.name).contains "error" = false) := by
  refine ⟨rfl, ?_, ?_, ?_⟩ <;> decide

/-- C8 amended: the relational sink is a single append-only table keyed by an
autoincrement integer id, with a server-assigned timestamp, the input payload
in a JSONB column, and typed nullable columns for prediction, probability and
decision label; it has no status code, duration or error text columns. -/
theorem predictions_schema_spec :
    (∃ c ∈ predictionsColumns,
      c.name = "id" ∧ c.primaryKey ∧ c.autoincrement ∧ c.ctype = .integer) ∧
    (∃ c ∈ predictionsColumns,
      c.name = "timestamp" ∧ c.serverDefaultNow ∧ ¬c.nullable ∧ c.ctype = .dateTimeTZ) ∧
    (∃ c ∈ predictionsColumns, c.name = "input_features" ∧ c.ctype = .jsonb ∧ c.nullable) ∧
    (∃ c ∈ predictionsColumns, c.name = "prediction" ∧ c.ctype = .smallInt ∧ c.nullable) ∧
    (∃ c ∈ predictionsColumns,
      c.name = "probability_default" ∧ c.ctype = .double ∧ c.nullable) ∧
    (∃ c ∈ predictionsColumns,
      c.name = "credit_decision" ∧ c.ctype = .varString 10 ∧ c.nullable) ∧
    (∀ c ∈ predictionsColumns,
      c.name ≠ "status_code" ∧ c.name ≠ "duration" ∧ c.name ≠ "error") := by
  decide

/-- C3: init_db never raises, so the process starts in every configuration; a
configured but failing connection or schema creation yields engine None, the
file backend; an unset URL likewise; a healthy configured database yields the
relational backend; and no sequence of request-time logging steps ever
changes the engine, so the backend chosen at startup is the single active
backend for the whole process lifetime, with no per-request switching. -/
theorem init_db_fallback_and_single_backend :
    (∀ url connectOk, (init_db url connectOk).isOk = true) ∧
    (∀ u : String, init_db (some u) false = .ok none) ∧
    (init_db none true = .ok none ∧ init_db none false = .ok none) ∧
    (∀ u : String, init_db (some u) true = .ok (some ())) ∧
    (∀ st reqs, (runLog st reqs).engine = st.engine) ∧
    (∀ st reqs, is_db_enabled (runLog st reqs) = is_db_enabled st) := by
  refine ⟨?_, fun _ => rfl, ⟨rfl, rfl⟩, fun _ => rfl, ?_, ?_⟩
  · intro url connectOk
    cases url <;> cases connectOk <;> rfl
  · intro st reqs
    exact runLog_engine reqs st
  · intro st reqs
    unfold is_db_enabled
    rw [runLog_engine]

/-- C4: insert_prediction and the middleware logging block never propagate an
exception to their caller, whatever the entry and whichever failure occurs
(connection, insert, or file write); and the response the middleware emits to
the client is the same whether or not the logging write succeeded. -/
theorem sink_write_never_throws :
    (∀ engine execOk rows e, (insert_prediction engine execOk rows e).isOk = true) ∧
    (∀ st a b e, (logToSink st a b e).isOk = true) ∧
    (∀ parse now body resp st a b a2 b2,
      (dispatch parse now body resp st a b).1 =
        (dispatch parse now body resp st a2 b2).1) := by
  refine ⟨?_, ?_, fun _ _ _ _ _ _ _ _ _ => rfl⟩
  · intro engine execOk rows e
    cases engine <;> cases execOk <;> rfl
  · intro st a b e
    obtain ⟨eng, fl, rows⟩ := st
    cases eng <;> cases a <;> cases b <;> rfl

/-- C2 counterexample: with the relational backend active, a single
successful prediction whose insert fails leaves both the predictions table
and the local log file empty — the entry is lost, not durably logged locally
at least once. -/
theorem failed_db_insert_drops_entry :
    runLog ⟨some (), [], []⟩ [(e0, false, true)] = ⟨some (), [], []⟩ ∧
    (runLog ⟨some (), [], []⟩ [(e0, false, true)]).fileLines.length = 0 ∧
    (runLog ⟨some (), [], []⟩ [(e0, false, true)]).dbRows.length = 0 :=
  ⟨rfl, rfl, rfl⟩

/-- C2 amended: when every write succeeds, N logged predictions leave exactly
the N entries, in order and each with its own recorded input, in the single
active backend (the file with engine None, the predictions table otherwise)
and nothing in the other backend; a relational insert failure after startup
instead drops that entry with no local fallback (see the counterexample). -/
theorem sink_records_all_successful_writes :
    (∀ es : List LogEntry,
      runLog ⟨none, [], []⟩ (es.map fun e => (e, true, true)) = ⟨none, es, []⟩) ∧
    (∀ es : List LogEntry,
      runLog ⟨some (), [], []⟩ (es.map fun e => (e, true, true)) =
        ⟨some (), [], es.map rowOf⟩) := by
  constructor
  · intro es
    simpa using runLog_ok_none es [] []
  · intro es
    simpa using runLog_ok_some es [] []

/-- C1 counterexample: a POST /predict invocation answered with status 422
(validation failure) hands no LogEntry at all to the sink and leaves the sink
state untouched, contradicting one-entry-per-invocation. -/
theorem middleware_skips_non_200_entry :
    (dispatch noParse "2025-01-01T00:00:00+00:00" [] resp422 st0 true true).2.2 = [] ∧
    (dispatch noParse "2025-01-01T00:00:00+00:00" [] resp422 st0 true true).2.1.fileLines = [] ∧
    (dispatch noParse "2025-01-01T00:00:00+00:00" [] resp422 st0 true true).2.1.dbRows = [] :=
  ⟨rfl, rfl, rfl⟩

/-- C1 amended: the middleware hands the sink exactly one LogEntry when and
only when the response status is 200; that entry holds the creation
timestamp, the parsed raw input payload (empty dict on parse failure) and the
outcome fields parsed from the buffered response body, and LogEntry carries
no status code, duration or error text; non-200 invocations, validation
failures included, are not logged and leave the sink untouched. -/
theorem middleware_log_entries_eq (parse : List ℕ → Option Json) (now : String)
    (body : List ℕ) (resp : Resp) (st : SinkState) (a b : Bool) :
    (dispatch parse now body resp st a b).2.2 =
      (if resp.status_code = 200 then [entryOf parse now body resp] else []) ∧
    (dispatch parse now body resp st a b).2.1 =
      (if resp.status_code = 200 then
        logStep st a b (entryOf parse now body resp)
      else st) := by
  unfold dispatch entryOf
  by_cases h : resp.status_code = 200 <;> simp [h]

/-- C7: the middleware re-emits the handler response unchanged — same status
code, same headers (FastAPI responses carry pairwise-distinct header names,
the hypothesis below), the same body bytes reassembled from the buffered
chunks without alteration or truncation, and the same media type — and the
emitted response does not depend on whether logging succeeded. -/
theorem dispatch_reemits_response (parse : List ℕ → Option Json) (now : String)
    (body : List ℕ) (resp : Resp) (st : SinkState) (a b : Bool)
    (hnodup : (resp.headers.map Prod.fst).Nodup) :
    (dispatch parse now body resp st a b).1.status_code = resp.status_code ∧
    (dispatch parse now body resp st a b).1.headers = resp.headers ∧
    (dispatch parse now body resp st a b).1.chunks.flatten = resp.chunks.flatten ∧
    (dispatch parse now body resp st a b).1.media_type = resp.media_type ∧
    (∀ a2 b2, (dispatch parse now body resp st a b).1 =
      (dispatch parse now body resp st a2 b2).1) := by
  refine ⟨rfl, ?_, ?_, rfl, fun _ _ => rfl⟩
  · exact dictOf_nodup resp.headers hnodup
  · show [resp.chunks.flatten].flatten = resp.chunks.flatten
    simp

/-- Witness for C7 at a concrete 200 response with distinct header names. -/
theorem dispatch_reemits_response_witness :
    (resp200.headers.map Prod.fst).Nodup ∧
    ((dispatch noParse "t" [] resp200 st0 true true).1.headers = resp200.headers ∧
      (dispatch noParse "t" [] resp200 st0 true true).1.status_code =
        resp200.status_code) := by
  refine ⟨by decide, ?_, ?_⟩
  · exact (dispatch_reemits_response noParse "t" [] resp200 st0 true true (by decide)).2.1
  · exact (dispatch_reemits_response noParse "t" [] resp200 st0 true true (by decide)).1

lemma rheInt_nonneg (n d : ℤ) (hd : 0 < d) (hn : 0 ≤ n) : 0 ≤ rheInt n d := by
  have hf : 0 ≤ n.fdiv d := by
    rw [Int.fdiv_eq_ediv _ hd.le]
    exact Int.ediv_nonneg hn hd.le
  simp only [rheInt]
  split
  · exact hf
  · split
    · omega
    · split
      · exact hf
      · omega

lemma rheInt_le (n d M : ℤ) (hd : 0 < d) (hnM : n ≤ d * M) : rheInt n d ≤ M := by
  have hfd : n.fdiv d = n / d := Int.fdiv_eq_ediv _ hd.le
  have hfle : n / d ≤ M := by
    have h2 : n / d ≤ (d * M) / d := Int.ediv_le_ediv hd hnM
    rwa [Int.mul_ediv_cancel_left _ hd.ne.symm] at h2
  have hmod0 : 0 ≤ n % d := Int.emod_nonneg n hd.ne.symm
  have hsucc : d ≤ 2 * (n % d) → n / d + 1 ≤ M := by
    intro hge
    by_cases hfM : n / d = M
    · exfalso
      have hn_eq : d * (n / d) + n % d = n := Int.ediv_add_emod n d
      rw [hfM] at hn_eq
      have : n % d ≤ 0 := by linarith [hnM, hn_eq]
      linarith
    · have : n / d < M := lt_of_le_of_ne hfle hfM
      omega
  simp only [rheInt, hfd]
  have hrem : n - n / d * d = n % d := by
    rw [Int.emod_def]
    ring
  rw [hrem]
  split
  · exact hfle
  · rename_i hc1
    split
    · rename_i hc2
      exact hsucc (by omega)
    · split
      · exact hfle
      · exact hsucc (by omega)

lemma round6_mem_unit (q : ℚ) (h0 : 0 ≤ q) (h1 : q ≤ 1) :
    0 ≤ round6 q ∧ round6 q ≤ 1 := by
  have hd : (0 : ℤ) < (q.den : ℤ) := by
    exact_mod_cast Nat.pos_of_ne_zero q.den_nz
  have hnum0 : 0 ≤ q.num := Rat.num_nonneg.mpr h0
  have hnum1 : q.num ≤ (q.den : ℤ) := by
    have h2 := Rat.le_def.mp h1
    simpa using h2
  have hn0 : 0 ≤ q.num * 1000000 := by positivity
  have hnM : q.num * 1000000 ≤ (q.den : ℤ) * 1000000 := by
    exact mul_le_mul_of_nonneg_right hnum1 (by norm_num)
  have h0i : 0 ≤ rheInt (q.num * 1000000) (q.den : ℤ) := rheInt_nonneg _ _ hd hn0
  have h1i : rheInt (q.num * 1000000) (q.den : ℤ) ≤ 1000000 := rheInt_le _ _ _ hd hnM
  unfold round6
  rw [Rat.mkRat_eq_div]
  constructor
  · apply div_nonneg _ (by norm_num)
    exact_mod_cast h0i
  · rw [div_le_one (by norm_num)]
    exact_mod_cast h1i

/-- C6 amended: the decision step is the pure function predictResponse of the
raw model probability; prediction equals 1 iff that raw probability reaches
the threshold 0.10, and 0 otherwise; credit_decision is denied iff prediction
is 1 and approved iff prediction is 0; the returned probability_default is
the probability rounded half-even to six decimals and stays in [0,1] whenever
the raw probability is in [0,1]. The claimed iff against the returned rounded
probability_default itself fails, see the counterexample. -/
theorem decision_policy_correct (p : ℚ) (h0 : 0 ≤ p) (h1 : p ≤ 1) :
    ((predictResponse p).prediction = 1 ↔ OPTIMAL_THRESHOLD ≤ p) ∧
    ((predictResponse p).prediction = 0 ↔ ¬ OPTIMAL_THRESHOLD ≤ p) ∧
    ((predictResponse p).credit_decision = "denied" ↔
      (predictResponse p).prediction = 1) ∧
    ((predictResponse p).credit_decision = "approved" ↔
      (predictResponse p).prediction = 0) ∧
    (predictResponse p).probability_default = round6 p ∧
    0 ≤ (predictResponse p).probability_default ∧
    (predictResponse p).probability_default ≤ 1 := by
  obtain ⟨hr0, hr1⟩ := round6_mem_unit p h0 h1
  unfold predictResponse
  by_cases h : OPTIMAL_THRESHOLD ≤ p <;> simp [h, hr0, hr1]

/-- Witness for C6 at raw probability one half. -/
theorem decision_policy_correct_witness :
    ((0 : ℚ) ≤ mkRat 1 2) ∧ (mkRat 1 2 ≤ (1 : ℚ)) ∧
    ((predictResponse (mkRat 1 2)).prediction = 1 ↔ OPTIMAL_THRESHOLD ≤ mkRat 1 2) ∧
    0 ≤ (predictResponse (mkRat 1 2)).probability_default :=
  ⟨by decide, by decide,
    (decision_policy_correct (mkRat 1 2) (by decide) (by decide)).1,
    (decision_policy_correct (mkRat 1 2) (by decide) (by decide)).2.2.2.2.2.1⟩

/-- C6 counterexample: at raw probability 0.0999999 the code returns
prediction 0 (since 0.0999999 < 0.10) while the returned probability_default
is the rounded value 0.1, so the claimed biconditional between prediction = 1
and probability_default greater or equal 0.10 fails on the returned fields. -/
theorem prediction_vs_rounded_probability_mismatch :
    (predictResponse (mkRat 999999 10000000)).prediction = 0 ∧
    OPTIMAL_THRESHOLD ≤ (predictResponse (mkRat 999999 10000000)).probability_default ∧
    ¬ ((predictResponse (mkRat 999999 10000000)).prediction = 1 ↔
        OPTIMAL_THRESHOLD ≤ (predictResponse (mkRat 999999 10000000)).probability_default) := by
  refine ⟨?_, ?_, ?_⟩ <;> decide

/-- C5: validation accepts a payload iff all ten named fields are present,
numerically coercible to their declared kind, and inside their declared
ranges — AMT_ANNUITY strictly above 0 and at most 1e6, DAYS_BIRTH an integer
in [-30000, -1], inclusive bounds elsewhere; and the structured error output
enumerates exactly the offending fields, not just the first. -/
theorem validate_accepts_iff_fields_valid (p : List (String × Json)) :
    ((validate p).isOk = true ↔
      (specFloatAccepted p "EXT_SOURCES_MEAN" 0 1 false ∧
       specFloatAccepted p "CREDIT_TERM" 0 1 false ∧
       specFloatAccepted p "EXT_SOURCE_3" 0 1 false ∧
       specFloatAccepted p "GOODS_PRICE_CREDIT_PERCENT" 0 (mkRat 3 2) false ∧
       specFloatAccepted p "INSTAL_AMT_PAYMENT_sum" 0 100000000 false ∧
       specFloatAccepted p "AMT_ANNUITY" 0 1000000 true ∧
       specFloatAccepted p "POS_CNT_INSTALMENT_FUTURE_mean" 0 200 false ∧
       specIntAccepted p "DAYS_BIRTH" (-30000) (-1) ∧
       specFloatAccepted p "EXT_SOURCES_WEIGHTED" 0 3 false ∧
       specFloatAccepted p "EXT_SOURCE_2" 0 1 false)) ∧
    (∀ name : String,
      (∃ msg, (name, msg) ∈ errorsOf (validate p)) ↔
        ∃ fs ∈ creditFeatureFields, fs.name = name ∧ (checkSpec p fs).isOk = false) := by
  constructor
  · rw [validate_isOk_iff, validationErrors_nil_iff]
    simp only [creditFeatureFields, List.forall_mem_cons, List.not_mem_nil,
      false_implies, implies_true, and_true]
    rw [checkSpec_float_iff, checkSpec_float_iff, checkSpec_float_iff,
      checkSpec_float_iff, checkSpec_float_iff, checkSpec_float_iff,
      checkSpec_float_iff, checkSpec_daysBirth_iff, checkSpec_float_iff,
      checkSpec_float_iff]
  · intro name
    rw [errorsOf_validate]
    unfold validationErrors
    constructor
    · rintro ⟨msg, hmem⟩
      obtain ⟨fs, hfs, hf⟩ := List.mem_filterMap.mp hmem
      cases h : checkSpec p fs with
      | ok q => rw [h] at hf; cases hf
      | error e =>
          rw [h] at hf
          obtain ⟨h1, h2⟩ := Prod.mk.injEq .. ▸ Option.some.inj hf
          exact ⟨fs, hfs, h1, by simp [h, Except.isOk, Except.toBool]⟩
    · rintro ⟨fs, hfs, hname, hbad⟩
      cases h : checkSpec p fs with
      | ok q => simp [h, Except.isOk, Except.toBool] at hbad
      | error e =>
          exact ⟨e, List.mem_filterMap.mpr ⟨fs, hfs, by rw [h, hname]⟩⟩

/-- C9: a JSON boolean carried by a float field is coerced, true to 1.0 and
false to 0.0; when the coerced value lies in the declared range of the field
and the other nine fields are valid, the payload is accepted rather than
rejected as a wrong type. -/
theorem bool_coerced_for_float_fields (p : List (String × Json)) (fs : FieldSpec)
    (b : Bool) (hmem : fs ∈ creditFeatureFields) (hkind : fs.kind = .float)
    (hlook : p.lookup fs.name = some (Json.boolV b))
    (hrange : boundsOk fs (if b then 1 else 0) = true)
    (hrest : ∀ fs2 ∈ creditFeatureFields, fs2.name ≠ fs.name →
      (checkSpec p fs2).isOk = true) :
    (validate p).isOk = true ∧ checkSpec p fs = .ok (if b then 1 else 0) := by
  have hcheck : checkSpec p fs = .ok (if b then 1 else 0) := by
    unfold checkSpec
    rw [hlook, hkind]
    simp only [coerceKind, coerceFloat]
    rw [if_pos hrange]
  refine ⟨?_, hcheck⟩
  rw [validate_isOk_iff, validationErrors_nil_iff]
  intro fs2 hfs2
  by_cases hname : fs2.name = fs.name
  · have heq : fs2 = fs := fieldName_inj fs2 hfs2 fs hmem hname
    rw [heq, hcheck]
    rfl
  · exact hrest fs2 hfs2 hname

/-- Witness for C9: the boolean payload of test_boolean_coercion_for_float is
accepted with EXT_SOURCES_MEAN equal to true. -/
theorem bool_coerced_for_float_fields_witness :
    extSourcesMeanField ∈ creditFeatureFields ∧
    (validate boolPayload).isOk = true ∧
    checkSpec boolPayload extSourcesMeanField = .ok 1 := by
  have h := bool_coerced_for_float_fields boolPayload extSourcesMeanField true
    (by decide) rfl rfl (by decide) (by decide)
  exact ⟨by decide, h.1, h.2⟩

end CreditApi
